import Mathlib

/-!
Verification development for the object-lease-controller repository.

The Go sources are shallowly embedded: Go `map[string]string` values become
association lists, `time.Duration` becomes `Int` (nanoseconds, with explicit
two's-complement wrapping where Go's int64 arithmetic can overflow),
`time.Time` becomes `Int` (nanoseconds since the Unix epoch, UTC), and
fallible functions return `Except`.  Cluster-side effects (PATCH / DELETE /
CREATE results) are supplied by an oracle and the reconciler's observable
actions (patches applied, events emitted, counters bumped, delete issued)
are accumulated in an explicit state record.
-/

namespace OLC

/-- Lookup in a Go `map[string]string`, modelled as an association list
(first match wins; lists built by `mapInsert`/`mapDelete` keep keys unique).
`none` models "key absent" (the comma-ok form `v, ok := m[k]`). -/
def mapGet : List (String × String) → String → Option String
  | [], _ => none
  | (k, v) :: rest, key => if k = key then some v else mapGet rest key

/-- Go map indexing `m[k]` without comma-ok: absent keys give the zero value `""`. -/
def mapGetD (m : List (String × String)) (k : String) : String :=
  (mapGet m k).getD ""

/-- Go map assignment `m[k] = v`: replaces an existing binding, else appends. -/
def mapInsert : List (String × String) → String → String → List (String × String)
  | [], k, v => [(k, v)]
  | (k', v') :: rest, k, v =>
    if k' = k then (k, v) :: rest else (k', v') :: mapInsert rest k v

/-- Go `delete(m, k)`. -/
def mapDelete (m : List (String × String)) (k : String) : List (String × String) :=
  m.filter (fun kv => kv.1 != k)

/-- Key-presence test, `_, ok := m[k]`. -/
def mapHas (m : List (String × String)) (k : String) : Bool :=
  (mapGet m k).isSome

@[simp] theorem mapGet_nil (k : String) : mapGet [] k = none := rfl

@[simp] theorem mapGet_cons (k v key : String) (rest : List (String × String)) :
    mapGet ((k, v) :: rest) key = if k = key then some v else mapGet rest key := rfl

theorem mapGet_mapInsert_self (m : List (String × String)) (k v : String) :
    mapGet (mapInsert m k v) k = some v := by
  induction m with
  | nil => simp [mapInsert]
  | cons kv rest ih =>
    obtain ⟨k', v'⟩ := kv
    by_cases h : k' = k <;> simp [mapInsert, h, ih]

theorem mapGet_mapInsert_ne (m : List (String × String)) (k v k' : String)
    (h : k ≠ k') : mapGet (mapInsert m k v) k' = mapGet m k' := by
  induction m with
  | nil => simp [mapInsert, h]
  | cons kv rest ih =>
    obtain ⟨k0, v0⟩ := kv
    by_cases h0 : k0 = k <;> by_cases h1 : k0 = k' <;>
      simp_all [mapInsert]

theorem mapGet_mapDelete_self (m : List (String × String)) (k : String) :
    mapGet (mapDelete m k) k = none := by
  induction m with
  | nil => simp [mapDelete]
  | cons kv rest ih =>
    obtain ⟨k0, v0⟩ := kv
    by_cases h0 : k0 = k <;> simp_all [mapDelete, List.filter_cons, bne_iff_ne]

theorem mapGet_mapDelete_ne (m : List (String × String)) (k k' : String)
    (h : k' ≠ k) : mapGet (mapDelete m k) k' = mapGet m k' := by
  induction m with
  | nil => simp [mapDelete]
  | cons kv rest ih =>
    obtain ⟨k0, v0⟩ := kv
    by_cases h0 : k0 = k <;> by_cases h1 : k0 = k' <;>
      simp_all [mapDelete, List.filter_cons, bne_iff_ne]

/-! ## pkg/util/duration.go — ParseFlexibleDuration -/

/-- Digit character class `\d` of the term regex. -/
def isDigitCh (c : Char) : Bool := '0' ≤ c && c ≤ '9'

/-- Unit character class `[A-Za-zµμ]` of the term regex
(U+00B5 micro sign and U+03BC Greek mu). -/
def isUnitCh (c : Char) : Bool :=
  ('A' ≤ c && c ≤ 'Z') || ('a' ≤ c && c ≤ 'z') || c = 'µ' || c = 'μ'

/-- Go whitespace test used by `strings.TrimSpace` (ASCII part; the unit
substrings it is applied to consist of letters only, so this is exact here). -/
def isGoSpace (c : Char) : Bool :=
  c = ' ' || c = '\t' || c = '\n' || c.toNat = 11 || c.toNat = 12 || c = '\r'

/-- Model of Go `strings.TrimSpace` on a character list. -/
def trimSpaceChars (cs : List Char) : List Char :=
  ((cs.dropWhile isGoSpace).reverse.dropWhile isGoSpace).reverse

/-- Match of the number group `(\d*\.\d+|\d+)` at the head of `cs`
with the regexp's leftmost-first alternation: the fractional branch wins
exactly when a digit run (possibly empty) is followed by `.` and at least
one digit; otherwise a nonempty digit run matches; otherwise no match.
Returns the matched number characters and the remainder. -/
def matchNumber (cs : List Char) : Option (List Char × List Char) :=
  let (d, rest) := cs.span isDigitCh
  match rest with
  | '.' :: r2 =>
    let (f, r3) := r2.span isDigitCh
    if f.isEmpty then
      if d.isEmpty then none else some (d, rest)
    else some (d ++ '.' :: f, r3)
  | _ => if d.isEmpty then none else some (d, rest)

/-- Model of `re.FindAllStringSubmatch(val, -1)` for the term regex
`(\d*\.\d+|\d+)([A-Za-zµμ]*)`: scan left to right, at each rune either take
the leftmost match (number group, then the maximal unit-letter run) and
continue after it, or advance one rune.  `fuel` bounds the recursion; every
step consumes at least one character, so `cs.length + 1` is always enough. -/
def findTerms : Nat → List Char → List (List Char × List Char)
  | 0, _ => []
  | _, [] => []
  | fuel + 1, c :: tail =>
    match matchNumber (c :: tail) with
    | none => findTerms fuel tail
    | some (num, rest) =>
      let (u, rest2) := rest.span isUnitCh
      (num, u) :: findTerms fuel rest2

/-- Two's-complement wrap of Go `int64` arithmetic (Go defines signed
overflow as wrapping). -/
def wrap64 (n : Int) : Int := (n + 2 ^ 63) % 2 ^ 64 - 2 ^ 63

/-- Plain digit-run accumulation (no overflow concern at use sites). -/
def digitsToNat (cs : List Char) : Nat :=
  cs.foldl (fun acc c => acc * 10 + (c.toNat - '0'.toNat)) 0

/-- Model of Go `time.leadingInt` restricted to an all-digit input (the
caller hands it the digit run already split off): accumulates base 10 with
the uint64 overflow guards `x > (1<<63)/10` before and `x > 1<<63` after
each step; the error stands for Go's `errLeadingInt`. -/
def leadingInt : Nat → List Char → Except String Nat
  | x, [] => .ok x
  | x, c :: cs =>
    if x > 922337203685477580 then .error "time: invalid duration"
    else
      let y := x * 10 + (c.toNat - '0'.toNat)
      if y > 9223372036854775808 then .error "time: invalid duration"
      else leadingInt y cs

/-- Model of Go `time.leadingFraction` on an all-digit input: accumulates
value and scale, silently dropping digits once the uint64 guards trip
(`overflow` flag). Go keeps `scale` as float64; powers of ten stay exact
well past the overflow cutoff, so `Nat` is faithful. -/
def leadingFraction : Nat → Nat → Bool → List Char → Nat × Nat
  | x, scale, _, [] => (x, scale)
  | x, scale, overflow, c :: cs =>
    if overflow then leadingFraction x scale overflow cs
    else if x > 922337203685477580 then leadingFraction x scale true cs
    else
      let y := x * 10 + (c.toNat - '0'.toNat)
      if y > 9223372036854775808 then leadingFraction x scale true cs
      else leadingFraction y (scale * 10) overflow cs

/-- Nanoseconds of the standard units that ParseFlexibleDuration delegates
to `time.ParseDuration` (already lowercased and µ-normalized by the caller). -/
def stdUnitNanos : String → Option Nat
  | "ns" => some 1
  | "us" => some 1000
  | "ms" => some 1000000
  | "s" => some 1000000000
  | "m" => some 60000000000
  | "h" => some 3600000000000
  | _ => none

/-- Model of `time.ParseDuration(numStr + unit)` as called from
ParseFlexibleDuration: `numStr` is `\d+` or `\d*\.\d+` (unsigned) and
`unit` is the nanosecond value of one of ns/us/ms/s/m/h.  Mirrors the Go
loop body for the single term: leading integer, optional fraction, the
uint64 overflow checks `v > (1<<63)/unit`, `v > 1<<63` after the fraction
add, `d > 1<<63` after accumulation and `d > 1<<63-1` at the end.  The
fraction contribution `uint64(float64(f) * (float64(unit)/scale))` is
modelled as `f * unit / scale` in `Nat`, which agrees whenever the float64
computation is exact (all inputs evaluated in this file are integral). -/
def parseDurationStd (numStr : List Char) (unit : Nat) : Except String Int :=
  let (ds, rest) := numStr.span isDigitCh
  match leadingInt 0 ds with
  | .error e => .error e
  | .ok v =>
    let (f, scale) :=
      match rest with
      | '.' :: fs => leadingFraction 0 1 false fs
      | _ => (0, 1)
    if v > 9223372036854775808 / unit then .error "time: invalid duration"
    else
      let v1 := v * unit
      let v2 := if f > 0 then v1 + f * unit / scale else v1
      if f > 0 && v2 > 9223372036854775808 then .error "time: invalid duration"
      else if v2 > 9223372036854775808 then .error "time: invalid duration"
      else if v2 > 9223372036854775807 then .error "time: invalid duration"
      else .ok (Int.ofNat v2)

/-- Nanoseconds of the custom units of ParseFlexibleDuration's `unitMap`
(day, week, month = 30 d, year = 365 d) keyed by the lowercased unit
token, folding in the alias switch (`mth`/`month`/`mo`). -/
def customUnitNanos : String → Option Nat
  | "d" => some 86400000000000
  | "w" => some 604800000000000
  | "mth" => some 2592000000000000
  | "month" => some 2592000000000000
  | "mo" => some 2592000000000000
  | "y" => some 31536000000000000
  | _ => none

/-- Rendering of Go's `%q` verb for the plain ASCII strings that reach the
parser's error messages. -/
def goQuote (s : String) : String := "\"" ++ s ++ "\""

/-- Model of `strconv.ParseFloat(numStr, 64)` on the regex-shaped inputs
(`\d+` or `\d*\.\d+`): the exact decimal value as a rational, with Go's
range error when the value rounds to +Inf (threshold 2^1024 − 2^970).
Go returns the nearest float64; the exact rational agrees wherever the
decimal is representable, which covers every input evaluated here. -/
def parseGoFloat (numStr : List Char) : Except String ℚ :=
  let (ds, rest) := numStr.span isDigitCh
  let fs := match rest with
    | '.' :: r2 => r2
    | _ => []
  let q : ℚ := (digitsToNat ds : ℚ) + (digitsToNat fs : ℚ) / (10 : ℚ) ^ fs.length
  if (2 : ℚ) ^ 1024 - (2 : ℚ) ^ 970 ≤ q then
    .error "strconv.ParseFloat: value out of range"
  else .ok q

/-- Model of the Go conversion `time.Duration(float64(unitDur) * num)` for
the nonnegative products arising here: truncation toward zero in range;
out of int64 range the Go conversion is implementation-defined and the
supported targets (amd64/arm64) produce the minimal int64. -/
def durationOfFloat (q : ℚ) : Int :=
  if q < (2 : ℚ) ^ 63 then ⌊q⌋ else -(2 ^ 63)

/-- Per-term loop body of ParseFlexibleDuration, folding the running sum
`sumDur` (Go int64, hence `wrap64` on every `+=`). Mirrors, in order: the
TrimSpace of the unit group, the empty-unit error, the µ/μ → u
normalization, the case-insensitive standard-unit delegation to
`time.ParseDuration`, the custom-unit switch, and the ParseFloat +
float-multiply path for custom units. -/
def parseTerms : Int → List (List Char × List Char) → Except String Int
  | acc, [] => .ok acc
  | acc, (numCs, unitCs) :: rest =>
    let unitStr := trimSpaceChars unitCs
    if unitStr.isEmpty then
      .error ("missing unit in duration element: " ++ goQuote (String.mk (numCs ++ unitCs)))
    else
      let uNorm := unitStr.map (fun c => if c = 'µ' || c = 'μ' then 'u' else c)
      let uLower := String.mk (uNorm.map Char.toLower)
      match stdUnitNanos uLower with
      | some unit =>
        match parseDurationStd numCs unit with
        | .error e => .error e
        | .ok dur => parseTerms (wrap64 (acc + dur)) rest
      | none =>
        match customUnitNanos uLower with
        | none => .error ("unknown duration unit: " ++ goQuote (String.mk uNorm))
        | some unitDur =>
          match parseGoFloat numCs with
          | .error e => .error e
          | .ok num => parseTerms (wrap64 (acc + durationOfFloat (num * (unitDur : ℚ)))) rest

/-- Model of `util.ParseFlexibleDuration` (pkg/util/duration.go): strip an
optional leading `-`, scan all `(\d*\.\d+|\d+)([A-Za-zµμ]*)` matches, fail
when there are none, sum the terms (int64 wrapping), negate at the end
(again int64, hence wrapped). -/
def ParseFlexibleDuration (val : String) : Except String Int :=
  let cs := val.data
  let (neg, cs2) :=
    match cs with
    | '-' :: rest => (true, rest)
    | _ => (false, cs)
  let strs := findTerms (cs2.length + 1) cs2
  if strs.isEmpty then
    .error ("invalid duration string: " ++ goQuote (String.mk cs2))
  else
    match parseTerms 0 strs with
    | .error e => .error e
    | .ok sum => .ok (if neg then wrap64 (-sum) else sum)

/-! ## Time: RFC3339 (canonical UTC form) over `Int` epoch nanoseconds

The controller formats times with `time.Format(time.RFC3339)` on UTC values,
which yields the canonical `YYYY-MM-DDTHH:MM:SSZ` form, and parses
`lease-start` with `time.Parse(time.RFC3339)`.  The model implements exactly
the canonical form (Go's parser additionally accepts numeric offsets and
fractional seconds; values the controller itself wrote are always canonical). -/

/-- Days from 1970-01-01 of a civil date (year 0–9999, validated month/day),
via the standard era decomposition of the proleptic Gregorian calendar. -/
def daysFromCivil (y m d : Nat) : Int :=
  let y' := if m ≤ 2 then y + 399 else y + 400
  let era := y' / 400
  let yoe := y' % 400
  let doy := (153 * (if 2 < m then m - 3 else m + 9) + 2) / 5 + (d - 1)
  let doe := yoe * 365 + yoe / 4 - yoe / 100 + doy
  (era * 146097 + doe : Int) - 865565

/-- Inverse of `daysFromCivil`: civil date of a day number (floor semantics,
total on `Int`). -/
def civilFromDays (z : Int) : Int × Nat × Nat :=
  let z' := z + 719468
  let era := Int.fdiv z' 146097
  let doe := (z' - era * 146097).toNat
  let yoe := (doe - doe / 1460 + doe / 36524 - doe / 146096) / 365
  let doy := doe - (365 * yoe + yoe / 4 - yoe / 100)
  let mp := (5 * doy + 2) / 153
  let d := doy - (153 * mp + 2) / 5 + 1
  let m := if mp < 10 then mp + 3 else mp - 9
  (era * 400 + yoe + (if m ≤ 2 then 1 else 0), m, d)

/-- Gregorian leap-year test. -/
def isLeapYear (y : Nat) : Bool :=
  (y % 4 = 0 && y % 100 ≠ 0) || y % 400 = 0

/-- Days in a month. -/
def daysInMonth (y m : Nat) : Nat :=
  if m = 2 then (if isLeapYear y then 29 else 28)
  else if m = 4 || m = 6 || m = 9 || m = 11 then 30
  else 31

/-- Parse a fixed-width decimal field. -/
def parseDigits (cs : List Char) : Option Nat :=
  if cs.all isDigitCh then some (digitsToNat cs) else none

/-- Model of `time.Parse(time.RFC3339, s)` restricted to the canonical UTC
form `YYYY-MM-DDTHH:MM:SSZ` the controller emits, with field validation;
result is epoch nanoseconds. -/
def parseRFC3339 (s : String) : Option Int :=
  match s.data with
  | [y1, y2, y3, y4, '-', mo1, mo2, '-', d1, d2, 'T',
     h1, h2, ':', mi1, mi2, ':', s1, s2, 'Z'] =>
    match parseDigits [y1, y2, y3, y4], parseDigits [mo1, mo2], parseDigits [d1, d2],
        parseDigits [h1, h2], parseDigits [mi1, mi2], parseDigits [s1, s2] with
    | some y, some mo, some d, some h, some mi, some sec =>
      if 1 ≤ mo && mo ≤ 12 && 1 ≤ d && d ≤ daysInMonth y mo
          && h ≤ 23 && mi ≤ 59 && sec ≤ 59 then
        some ((daysFromCivil y mo d * 86400 + (h * 3600 + mi * 60 + sec : Nat)) * 1000000000)
      else none
    | _, _, _, _, _, _ => none
  | _ => none

/-- Left-pad a number to a fixed width with zeros. -/
def padNum (width n : Nat) : String :=
  let s := toString n
  String.mk (List.replicate (width - s.length) '0') ++ s

/-- Model of `t.Format(time.RFC3339)` for a UTC time `t` given as epoch
nanoseconds: sub-second precision is not printed (RFC3339 layout has no
fraction), i.e. the time is floored to whole seconds. -/
def formatRFC3339 (t : Int) : String :=
  let secs := Int.fdiv t 1000000000
  let days := Int.fdiv secs 86400
  let sod := (secs - days * 86400).toNat
  let (y, m, d) := civilFromDays days
  padNum 4 y.toNat ++ "-" ++ padNum 2 m ++ "-" ++ padNum 2 d ++ "T" ++
    padNum 2 (sod / 3600) ++ ":" ++ padNum 2 (sod % 3600 / 60) ++ ":" ++
    padNum 2 (sod % 60) ++ "Z"

/-! ## Data model: unstructured objects and the controller configuration -/

/-- The slice of an `unstructured.Unstructured` object the controller reads
and writes: identity fields, annotations, labels, plus `managedFields` and
a stand-in for every remaining payload field (spec, status, ...), which the
lease logic never touches but the cache transform must be seen to drop. -/
structure Unstructured where
  apiVersion : String := ""
  kind : String := ""
  nsName : String := ""
  name : String := ""
  uid : String := ""
  resourceVersion : String := ""
  deletionTimestamp : Option Int := none
  annotations : List (String × String) := []
  labels : List (String × String) := []
  managedFields : List String := []
  extraFields : List (String × String) := []
  deriving Repr, DecidableEq

/-- A GroupVersionKind triple. -/
structure GVK where
  group : String := ""
  version : String := ""
  kind : String := ""
  deriving Repr, DecidableEq

/-- The `Annotations` configuration struct of the LeaseWatcher: the full
annotation key for each logical name. -/
structure LeaseKeys where
  TTL : String
  LeaseStart : String
  ExpireAt : String
  Status : String
  OnDeleteJob : String
  JobServiceAccount : String
  JobImage : String
  JobWait : String
  JobTimeout : String
  JobTTL : String
  JobBackoffLimit : String
  JobEnvSecrets : String
  deriving Repr, DecidableEq

/-- The annotation keys the deployed controller wires in (cmd/main.go
`Ann...` constants). -/
def defaultKeys : LeaseKeys where
  TTL := "object-lease-controller.ullberg.io/ttl"
  LeaseStart := "object-lease-controller.ullberg.io/lease-start"
  ExpireAt := "object-lease-controller.ullberg.io/expire-at"
  Status := "object-lease-controller.ullberg.io/lease-status"
  OnDeleteJob := "object-lease-controller.ullberg.io/on-delete-job"
  JobServiceAccount := "object-lease-controller.ullberg.io/job-service-account"
  JobImage := "object-lease-controller.ullberg.io/job-image"
  JobWait := "object-lease-controller.ullberg.io/job-wait"
  JobTimeout := "object-lease-controller.ullberg.io/job-timeout"
  JobTTL := "object-lease-controller.ullberg.io/job-ttl"
  JobBackoffLimit := "object-lease-controller.ullberg.io/job-backoff-limit"
  JobEnvSecrets := "object-lease-controller.ullberg.io/job-env-secrets"

/-! ## pkg/controllers/lease_controller.go — the watch predicate -/

/-- Model of `leaseRelevantAnns`: the restriction of the object's annotation
map to the keys `[TTL, LeaseStart]`, built exactly as in the source (range
over the key slice, copy present entries into a fresh map). -/
def leaseRelevantAnns (u : Unstructured) (keys : LeaseKeys) : List (String × String) :=
  [keys.TTL, keys.LeaseStart].foldl
    (fun result k =>
      match mapGet u.annotations k with
      | some v => mapInsert result k v
      | none => result)
    []

/-- The four predicate functions returned by `onlyWithTTLAnn`.  Event
payloads are the (unstructured) objects themselves; the source's failed
type-assertion branches cannot arise in the model. -/
structure PredicateFuncs where
  createFunc : Unstructured → Bool
  updateFunc : Unstructured → Unstructured → Bool
  deleteFunc : Unstructured → Bool
  genericFunc : Unstructured → Bool

/-- Model of the predicate constructor in lease_controller.go (its Go name
ends in ...TTLAnnotation): create admits on TTL-key presence,
update on a change of the lease-relevant projection (`reflect.DeepEqual` of
the two projections, which are built in canonical key order, coincides with
structural equality), delete and generic never admit. -/
def onlyWithTTLAnn (keys : LeaseKeys) : PredicateFuncs where
  createFunc obj := mapHas obj.annotations keys.TTL
  updateFunc oldObj newObj :=
    !(leaseRelevantAnns oldObj keys == leaseRelevantAnns newObj keys)
  deleteFunc _ := false
  genericFunc _ := false

/-! ## pkg/util object filter — MinimalObjectTransform / stripU -/

/-- Model of `cache.TransformStripManagedFields()`: drops the server-side
managed-field history, leaves everything else alone. -/
def stripManagedFields (u : Unstructured) : Unstructured :=
  { u with managedFields := [] }

/-- Model of `stripU`: rebuild the object from scratch with only apiVersion,
kind, name, namespace, uid, resourceVersion, the deletion timestamp when
set, and the annotations whose keys are in the keep set (the map is only
set when nonempty in Go; the empty map and an absent map are both `[]`
here). -/
def stripU (input : Unstructured) (keep : List String) : Unstructured :=
  let filtered := input.annotations.filter (fun kv => keep.contains kv.1)
  { apiVersion := input.apiVersion
    kind := input.kind
    name := input.name
    nsName := input.nsName
    uid := input.uid
    resourceVersion := input.resourceVersion
    deletionTimestamp := input.deletionTimestamp
    annotations := filtered }

/-- Model of `MinimalObjectTransform(keepKeys...)` applied to a single
unstructured object: strip managed fields, then project with `stripU`.
(The list branch applies `stripU` itemwise and non-unstructured inputs pass
through unchanged.) -/
def MinimalObjectTransform (keepKeys : List String) (obj : Unstructured) : Unstructured :=
  stripU (stripManagedFields obj) keepKeys

/-! ## pkg/util cleanup_job.go — ParseCleanupJobConfig / CreateCleanupJob -/

/-- Model of `strconv.ParseBool`. -/
def parseBool (s : String) : Except String Bool :=
  if s = "1" || s = "t" || s = "T" || s = "TRUE" || s = "true" || s = "True" then .ok true
  else if s = "0" || s = "f" || s = "F" || s = "FALSE" || s = "false" || s = "False" then .ok false
  else .error "strconv.ParseBool: invalid syntax"

/-- Model of `strconv.ParseInt(s, 10, 32)`: optional sign, nonempty digit
run, int32 range check (Go reports ErrRange outside it; the callers treat
any error alike). -/
def parseInt32 (s : String) : Except String Int :=
  let (neg, ds) :=
    match s.data with
    | '-' :: rest => (true, rest)
    | '+' :: rest => (false, rest)
    | cs => (false, cs)
  if ds.isEmpty || !ds.all isDigitCh then .error "strconv.ParseInt: invalid syntax"
  else
    let n : Int := if neg then -(digitsToNat ds : Int) else (digitsToNat ds : Int)
    if n < -2147483648 || 2147483647 < n then .error "strconv.ParseInt: value out of range"
    else .ok n

/-- Model of `strings.SplitN(s, "/", 2)`: split at the first `/` only. -/
def splitN2Slash (s : String) : List String :=
  match s.data.span (fun c => c ≠ '/') with
  | (before, '/' :: after) => [String.mk before, String.mk after]
  | (before, _) => [String.mk before]

/-- The `CleanupJobConfig` struct exactly as declared in the source under
src/ (note: it has no field for env-from secrets). -/
structure CleanupJobConfig where
  configMapName : String
  scriptKey : String
  serviceAccount : String
  image : String
  wait : Bool
  timeout : Int
  ttlSecondsAfterFinished : Int
  backoffLimit : Int
  deriving Repr, DecidableEq

/-- Model of `ParseCleanupJobConfig(annotations, annotationKeys)`.  The Go
caller passes `annotationKeys` as a map from the eight logical names to the
configured keys; that indirection is inlined through `keys`.  Faithful to
the source under src/: the `JobEnvSecrets` annotation is never read. -/
def ParseCleanupJobConfig (anns : List (String × String)) (keys : LeaseKeys) :
    Except String (Option CleanupJobConfig) :=
  let onDeleteJob := mapGetD anns keys.OnDeleteJob
  if onDeleteJob = "" then .ok none
  else
    match splitN2Slash onDeleteJob with
    | [cm, key] =>
      let config : CleanupJobConfig :=
        { configMapName := cm
          scriptKey := key
          serviceAccount := "default"
          image := "bitnami/kubectl:latest"
          wait := false
          timeout := 300000000000
          ttlSecondsAfterFinished := 300
          backoffLimit := 3 }
      let config := match mapGetD anns keys.JobServiceAccount with
        | "" => config
        | sa => { config with serviceAccount := sa }
      let config := match mapGetD anns keys.JobImage with
        | "" => config
        | img => { config with image := img }
      let waitStr := mapGetD anns keys.JobWait
      let step1 : Except String CleanupJobConfig :=
        if waitStr = "" then .ok config
        else match parseBool waitStr with
          | .error e => .error ("invalid job-wait value: " ++ e)
          | .ok w => .ok { config with wait := w }
      match step1 with
      | .error e => .error e
      | .ok config =>
        let timeoutStr := mapGetD anns keys.JobTimeout
        let step2 : Except String CleanupJobConfig :=
          if timeoutStr = "" then .ok config
          else match ParseFlexibleDuration timeoutStr with
            | .error e => .error ("invalid job-timeout value: " ++ e)
            | .ok t => .ok { config with timeout := t }
        match step2 with
        | .error e => .error e
        | .ok config =>
          let ttlStr := mapGetD anns keys.JobTTL
          let step3 : Except String CleanupJobConfig :=
            if ttlStr = "" then .ok config
            else match parseInt32 ttlStr with
              | .error e => .error ("invalid job-ttl value: " ++ e)
              | .ok n => .ok { config with ttlSecondsAfterFinished := n }
          match step3 with
          | .error e => .error e
          | .ok config =>
            let backoffStr := mapGetD anns keys.JobBackoffLimit
            if backoffStr = "" then .ok (some config)
            else match parseInt32 backoffStr with
              | .error e => .error ("invalid job-backoff-limit value: " ++ e)
              | .ok n => .ok (some { config with backoffLimit := n })
    | _ => .error ("invalid on-delete-job format: expected \x27configmap-name/script-key\x27, got \x27"
        ++ onDeleteJob ++ "\x27")

/-- An environment variable of the cleanup container. -/
structure EnvVar where
  name : String
  value : String
  deriving Repr, DecidableEq

/-- The cleanup container as constructed by `CreateCleanupJob`.  `envFrom`
lists the names of Secrets referenced via `SecretEnvSource`; the source
under src/ never populates it (Go zero value, empty slice). -/
structure Container where
  name : String
  image : String
  command : List String
  env : List EnvVar
  envFrom : List String := []
  volumeMountName : String
  mountPath : String
  readOnly : Bool
  deriving Repr, DecidableEq

/-- The slice of a `batchv1.Job` that `CreateCleanupJob` populates. -/
structure CleanupJob where
  generateName : String
  nsName : String
  labels : List (String × String)
  ttlSecondsAfterFinished : Int
  backoffLimit : Int
  restartPolicy : String
  serviceAccountName : String
  volumeName : String
  volumeConfigMapName : String
  volumeScriptKey : String
  volumeScriptPath : String
  defaultMode : Nat
  containers : List Container
  deriving Repr, DecidableEq

/-- Lexicographic comparison on character lists (for key sorting). -/
def charListLe : List Char → List Char → Bool
  | [], _ => true
  | _ :: _, [] => false
  | c :: cs, d :: ds => if c < d then true else if d < c then false else charListLe cs ds

/-- Insert into a key-sorted association list (insertion sort step). -/
def insertSorted (x : String × String) : List (String × String) → List (String × String)
  | [] => [x]
  | y :: ys => if charListLe x.1.data y.1.data then x :: y :: ys else y :: insertSorted x ys

/-- Sort an association list by key. -/
def sortByKey (m : List (String × String)) : List (String × String) :=
  m.foldr insertSorted []

/-- Model of `json.Marshal` on a `map[string]string`: keys sorted (Go
marshals maps in key order), minimal quoting.  No claim inspects these
values; marshalling of a string map cannot fail in Go, so no error case. -/
def jsonObject (m : List (String × String)) : String :=
  let entries := (sortByKey m).map (fun kv => goQuote kv.1 ++ ":" ++ goQuote kv.2)
  "\x7b" ++ String.intercalate "," entries ++ "\x7d"

/-- Model of the job value built by `CreateCleanupJob(ctx, c, obj, gvk,
config, leaseStartedAt, leaseExpiredAt)` before submission, field by field
from the source literal under src/.  Note the container carries the eleven
OBJECT_*/LEASE_* env vars but no `EnvFrom` projections. -/
def CreateCleanupJob (obj : Unstructured) (gvk : GVK) (config : CleanupJobConfig)
    (leaseStartedAt leaseExpiredAt : Int) : CleanupJob :=
  let envVars : List EnvVar :=
    [ { name := "OBJECT_NAME", value := obj.name }
    , { name := "OBJECT_NAMESPACE", value := obj.nsName }
    , { name := "OBJECT_KIND", value := gvk.kind }
    , { name := "OBJECT_GROUP", value := gvk.group }
    , { name := "OBJECT_VERSION", value := gvk.version }
    , { name := "OBJECT_UID", value := obj.uid }
    , { name := "OBJECT_RESOURCE_VERSION", value := obj.resourceVersion }
    , { name := "LEASE_STARTED_AT", value := formatRFC3339 leaseStartedAt }
    , { name := "LEASE_EXPIRED_AT", value := formatRFC3339 leaseExpiredAt }
    , { name := "OBJECT_LABELS", value := jsonObject obj.labels }
    , { name := "OBJECT_ANNOTATIONS", value := jsonObject obj.annotations } ]
  { generateName := "lease-cleanup-" ++ obj.name ++ "-"
    nsName := obj.nsName
    labels :=
      [ ("object-lease-controller.ullberg.io/source-kind", gvk.kind)
      , ("object-lease-controller.ullberg.io/source-name", obj.name)
      , ("object-lease-controller.ullberg.io/cleanup-job", "true") ]
    ttlSecondsAfterFinished := config.ttlSecondsAfterFinished
    backoffLimit := config.backoffLimit
    restartPolicy := "Never"
    serviceAccountName := config.serviceAccount
    volumeName := "script"
    volumeConfigMapName := config.configMapName
    volumeScriptKey := config.scriptKey
    volumeScriptPath := "cleanup-script"
    defaultMode := 0o755
    containers :=
      [ { name := "cleanup"
          image := config.image
          command := ["/scripts/cleanup-script"]
          env := envVars
          volumeMountName := "script"
          mountPath := "/scripts"
          readOnly := true } ] }

/-- Modelled from the spec: `buildEnvFrom` is referenced by the repository's
tests (cleanup_job_test.go, cleanup_job_fuzz_test.go) but its definition is
absent from src/.  Per §4.5 step 2 of the spec, it turns a list of Secret
names into one `envFrom` Secret reference per name, "ignoring empty names
after trimming" (the callers trim before calling; an empty string yields no
reference). -/
def buildEnvFrom (names : List String) : List String :=
  names.filter (fun n => n ≠ "")

/-- Split a character list on commas (model of `strings.Split(s, ",")`). -/
def splitOnComma : List Char → List (List Char)
  | [] => [[]]
  | ',' :: rest => [] :: splitOnComma rest
  | c :: rest =>
    match splitOnComma rest with
    | first :: more => (c :: first) :: more
    | [] => [[c]]

/-- Modelled from the spec: the comma-separated `job-env-secrets` list,
split on commas with each element trimmed of whitespace, as the tests feed
`buildEnvFrom` and as §4.5 of the spec describes the annotation. -/
def splitEnvSecrets (s : String) : List String :=
  (splitOnComma s.data).map (fun part => String.mk (trimSpaceChars part))

/-! ## pkg/controllers/lease_controller.go — Reconcile

Cluster-side call results are drawn from an oracle (`Cluster`); everything
the reconciler does — patches (applied to the in-memory object exactly as
the Go code mutates and merge-patches it), events, metric increments, the
UID-preconditioned delete — is accumulated in `RecState`. -/

/-- Errors returned by the cluster API, as far as the reconciler
distinguishes them (`apierrors.IsNotFound` / Conflict / anything else). -/
inductive KErr
  | notFound
  | conflict
  | other
  deriving Repr, DecidableEq

/-- Model of `client.IgnoreNotFound`. -/
def ignoreNotFound : Option KErr → Option KErr
  | some .notFound => none
  | e => e

/-- Results the cluster returns to the reconciler's write calls: the n-th
PATCH issued, the DELETE, the Job CREATE, and the wait-for-completion. -/
structure Cluster where
  patchErr : Nat → Option KErr := fun _ => none
  deleteErr : Option KErr := none
  createJobErr : Option KErr := none
  waitErr : Option KErr := none

/-- An event emitted through the recorder (type and reason; the recorder is
configured in the deployed controller, so the `Recorder != nil` guards are
taken). -/
structure Event where
  etype : String
  reason : String
  deriving Repr, DecidableEq

/-- Observable reconcile state: the in-memory object (annotations as
mutated and merge-patched), emitted events, metric counter increments,
the result of each PATCH issued (the Go code discards these values), the
UID handed to the preconditioned DELETE if one was issued, and jobs built
for submission. -/
structure RecState where
  obj : Unstructured
  events : List Event := []
  leasesStarted : Nat := 0
  leasesExpired : Nat := 0
  invalidTTL : Nat := 0
  cleanupJobsCreated : Nat := 0
  cleanupJobsCompleted : Nat := 0
  cleanupJobsFailed : Nat := 0
  patchResults : List (Option KErr) := []
  deletedUID : Option String := none
  createdJobs : List CleanupJob := []
  deriving Repr

/-- A reconcile's return value `(ctrl.Result, error)` plus the accumulated
observable state. -/
structure ReconcileOutcome where
  state : RecState
  requeueAfter : Option Int
  err : Option KErr
  deriving Repr

/-- Record an event. -/
def emitEvent (s : RecState) (etype reason : String) : RecState :=
  { s with events := s.events ++ [⟨etype, reason⟩] }

/-- Model of `updateAnnotations`: merge the new entries into the object's
annotation map and issue one merge-PATCH whose result is read and discarded
(`_ = r.Patch(...)`) — recorded here only so theorems can talk about it. -/
def updateAnnotations (c : Cluster) (s : RecState)
    (newAnns : List (String × String)) : RecState :=
  let anns := newAnns.foldl (fun m kv => mapInsert m kv.1 kv.2) s.obj.annotations
  { s with
    obj := { s.obj with annotations := anns }
    patchResults := s.patchResults ++ [c.patchErr s.patchResults.length] }

/-- Model of `noTTL`: Go map indexing makes an absent key and an
empty-string value indistinguishable here. -/
def noTTL (obj : Unstructured) (keys : LeaseKeys) : Bool :=
  mapGetD obj.annotations keys.TTL == ""

/-- Model of `cleanupLeaseAnnotations`: delete `expire-at`, `lease-status`
and `lease-start` from the annotation map; if any was present, merge-patch
(result discarded) and emit a single `LeaseAnnotationsCleaned` event. -/
def cleanupLeaseAnnotations (c : Cluster) (keys : LeaseKeys) (s : RecState) : RecState :=
  let step := fun (p : List (String × String) × Bool) (k : String) =>
    if mapHas p.1 k then (mapDelete p.1 k, true) else p
  let (anns, cleaned) :=
    [keys.ExpireAt, keys.Status, keys.LeaseStart].foldl step (s.obj.annotations, false)
  if !cleaned then s
  else
    let s1 : RecState :=
      { s with
        obj := { s.obj with annotations := anns }
        patchResults := s.patchResults ++ [c.patchErr s.patchResults.length] }
    emitEvent s1 "Normal" "LeaseAnnotationsCleaned"

/-- Model of `ensureLeaseStart`: a present, nonempty, RFC3339-parseable
`lease-start` is taken as the anchor (`t.UTC()`); a present unparseable one
is reset to `now` with a `LeaseStartReset` warning; an absent (or empty)
one is set to `now` with a `LeaseStarted` event and counter bump. -/
def ensureLeaseStart (c : Cluster) (keys : LeaseKeys) (s : RecState) (now : Int) :
    Int × RecState :=
  match mapGet s.obj.annotations keys.LeaseStart with
  | some v =>
    if v = "" then
      let s1 := updateAnnotations c s [(keys.LeaseStart, formatRFC3339 now)]
      let s2 := emitEvent s1 "Normal" "LeaseStarted"
      (now, { s2 with leasesStarted := s2.leasesStarted + 1 })
    else
      match parseRFC3339 v with
      | some t => (t, s)
      | none =>
        let s1 := updateAnnotations c s [(keys.LeaseStart, formatRFC3339 now)]
        (now, emitEvent s1 "Warning" "LeaseStartReset")
  | none =>
    let s1 := updateAnnotations c s [(keys.LeaseStart, formatRFC3339 now)]
    let s2 := emitEvent s1 "Normal" "LeaseStarted"
    (now, { s2 with leasesStarted := s2.leasesStarted + 1 })

/-- Model of `markInvalidTTL`: write the parse error to `lease-status`,
emit an `InvalidTTL` warning, bump the invalid-ttl counter. -/
def markInvalidTTL (c : Cluster) (keys : LeaseKeys) (s : RecState)
    (parseErr : String) : RecState :=
  let msg := "Invalid TTL: " ++ parseErr
  let s1 := updateAnnotations c s [(keys.Status, msg)]
  let s2 := emitEvent s1 "Warning" "InvalidTTL"
  { s2 with invalidTTL := s2.invalidTTL + 1 }

/-- Model of `executeCleanupJob`: build the job (lease start re-parsed from
the annotation, falling back to the current clock), submit it (oracle),
then optionally wait (oracle).  Returns the error the Go function returns;
the caller turns it into a `CleanupJobFailed` event. -/
def executeCleanupJob (c : Cluster) (keys : LeaseKeys) (gvk : GVK) (s : RecState)
    (config : CleanupJobConfig) (expireAt now : Int) : RecState × Option String :=
  let leaseStartStr := mapGetD s.obj.annotations keys.LeaseStart
  let leaseStartedAt :=
    match parseRFC3339 leaseStartStr with
    | some t => t
    | none => now
  let job := CreateCleanupJob s.obj gvk config leaseStartedAt expireAt
  match c.createJobErr with
  | some _ => (s, some "failed to create cleanup job")
  | none =>
    let s1 := { s with createdJobs := s.createdJobs ++ [job] }
    let s2 := emitEvent s1 "Normal" "CleanupJobCreated"
    let s3 := { s2 with cleanupJobsCreated := s2.cleanupJobsCreated + 1 }
    if config.wait then
      match c.waitErr with
      | some _ => (emitEvent s3 "Warning" "CleanupJobTimeout", some "cleanup job did not complete")
      | none =>
        let s4 := emitEvent s3 "Normal" "CleanupJobCompleted"
        ({ s4 with cleanupJobsCompleted := s4.cleanupJobsCompleted + 1 }, none)
    else (s3, none)

/-- The cleanup-job block inside `handleExpired` (written inline in the Go
source): parse the job config from the object's annotations; a config error
is an event only; a configured job is executed, and execution failure is an
event plus counter only.  Deletion proceeds regardless. -/
def cleanupJobPhase (c : Cluster) (keys : LeaseKeys) (gvk : GVK) (s : RecState)
    (expireAt now : Int) : RecState :=
  match ParseCleanupJobConfig s.obj.annotations keys with
  | .error _ => emitEvent s "Warning" "CleanupJobConfigInvalid"
  | .ok none => s
  | .ok (some config) =>
    match executeCleanupJob c keys gvk s config expireAt now with
    | (s', some _) =>
      { emitEvent s' "Warning" "CleanupJobFailed" with
        cleanupJobsFailed := s'.cleanupJobsFailed + 1 }
    | (s', none) => s'

/-- The closing lines of `handleExpired`: `DeleteWithUIDPrecondition` (the
delete carries the precondition that the UID equals the observed UID), with
`client.IgnoreNotFound` applied to the result; any remaining error is
returned to the scheduler. -/
def deletePhase (c : Cluster) (s4 : RecState) : ReconcileOutcome :=
  let s5 := { s4 with deletedUID := some s4.obj.uid }
  match ignoreNotFound c.deleteErr with
  | some e => { state := s5, requeueAfter := none, err := some e }
  | none => { state := s5, requeueAfter := none, err := none }

/-- Model of `handleExpired`: write the expiry annotations, emit
`LeaseExpired`, bump the counter, run the cleanup-job orchestration (config
errors and job failures are events only and never block), then DELETE with
the UID precondition, ignoring NotFound and surfacing any other error. -/
def handleExpired (c : Cluster) (keys : LeaseKeys) (gvk : GVK) (s : RecState)
    (expireAt now : Int) : ReconcileOutcome :=
  let s1 := updateAnnotations c s
    [(keys.ExpireAt, formatRFC3339 expireAt), (keys.Status, "Lease expired. Deleting object.")]
  let s2 := emitEvent s1 "Normal" "LeaseExpired"
  let s3 := { s2 with leasesExpired := s2.leasesExpired + 1 }
  deletePhase c (cleanupJobPhase c keys gvk s3 expireAt now)

/-- Model of `setActive`: write `expire-at` and the active status, requeue
after `expireAt − now`. -/
def setActive (c : Cluster) (keys : LeaseKeys) (s : RecState)
    (expireAt now : Int) : ReconcileOutcome :=
  let status := "Lease active. Expires at " ++ formatRFC3339 expireAt ++ " UTC."
  let s1 := updateAnnotations c s
    [(keys.ExpireAt, formatRFC3339 expireAt), (keys.Status, status)]
  { state := s1, requeueAfter := some (expireAt - now), err := none }

/-- Model of `Reconcile`.  `tracked` is the namespace filter (`Tracker ==
nil` or the namespace is in the tracker's list); `getRes` is the cluster's
answer to the GET (NotFound is not an error); `now` is the reconcile's
clock reading (`time.Now().UTC()`).  The expiry test is Go's
`now.After(expireAt)`, i.e. strict. -/
def Reconcile (keys : LeaseKeys) (gvk : GVK) (c : Cluster) (tracked : Bool)
    (getRes : Except KErr Unstructured) (now : Int) : ReconcileOutcome :=
  if !tracked then
    { state := { obj := {} }, requeueAfter := none, err := none }
  else
    match getRes with
    | .error e =>
      { state := { obj := {} }, requeueAfter := none, err := ignoreNotFound (some e) }
    | .ok obj =>
      let s : RecState := { obj := obj }
      if noTTL obj keys then
        { state := cleanupLeaseAnnotations c keys s, requeueAfter := none, err := none }
      else
        let (startAt, s1) := ensureLeaseStart c keys s now
        match ParseFlexibleDuration (mapGetD s1.obj.annotations keys.TTL) with
        | .error e =>
          { state := markInvalidTTL c keys s1 e, requeueAfter := none, err := none }
        | .ok ttl =>
          let expireAt := startAt + ttl
          if expireAt < now then handleExpired c keys gvk s1 expireAt now
          else setActive c keys s1 expireAt now

/-! ## Theorems for the claims -/

/-- Claim C10: ParseFlexibleDuration accepts inputs outside the documented
grammar: characters that are not part of any number-unit term are silently
skipped, so "abc1h" parses to one hour and "1h ?? 2m" parses to the sum of
its embedded terms, while "abc" alone (no term at all) is rejected. -/
theorem C10_parse_skips_nonterm_text :
    ParseFlexibleDuration "abc1h" = .ok 3600000000000 ∧
    ParseFlexibleDuration "1h ?? 2m" = .ok 3720000000000 ∧
    ParseFlexibleDuration "abc" = .error "invalid duration string: \"abc\"" :=
  ⟨rfl, rfl, rfl⟩

/-- Claim C5 (code bug): an input denoting a total outside the signed
64-bit nanosecond range should fail, but the per-term sum `sumDur += dur`
is ordinary int64 arithmetic: two terms of 9·10^18 ns each (individually
accepted by time.ParseDuration) denote 1.8·10^19 ns > 2^63 − 1, yet
ParseFlexibleDuration wraps around and returns a negative duration with no
error. -/
theorem C5_parse_overflow_wraps :
    ParseFlexibleDuration "9000000000000000000ns9000000000000000000ns"
      = .ok (-446744073709551616) ∧
    (9000000000000000000 + 9000000000000000000 : Int) > 2 ^ 63 - 1 ∧
    (-446744073709551616 : Int) < 0 :=
  ⟨rfl, by decide, by decide⟩

/-- Characterization of lookups after filtering to a keep set. -/
theorem mapGet_filter_keep (m : List (String × String)) (keep : List String) (k : String) :
    mapGet (m.filter (fun kv => keep.contains kv.1)) k =
      if keep.contains k then mapGet m k else none := by
  induction m with
  | nil => simp
  | cons kv rest ih =>
    obtain ⟨k0, v0⟩ := kv
    by_cases h0 : k0 = k <;> by_cases h1 : keep.contains k0 = true <;>
      simp_all [List.filter_cons]

/-- Claim C7: the cache minimization transform keeps only apiVersion, kind,
namespace, name, uid, resourceVersion, the deletion timestamp (when set),
and exactly the annotations whose keys are in the keep set fixed at
construction; labels, managed-field history and all remaining payload
fields are absent from the projection. -/
theorem C7_minimal_transform_projection (keep : List String) (obj : Unstructured) :
    (MinimalObjectTransform keep obj).apiVersion = obj.apiVersion ∧
    (MinimalObjectTransform keep obj).kind = obj.kind ∧
    (MinimalObjectTransform keep obj).nsName = obj.nsName ∧
    (MinimalObjectTransform keep obj).name = obj.name ∧
    (MinimalObjectTransform keep obj).uid = obj.uid ∧
    (MinimalObjectTransform keep obj).resourceVersion = obj.resourceVersion ∧
    (MinimalObjectTransform keep obj).deletionTimestamp = obj.deletionTimestamp ∧
    (∀ k, mapGet (MinimalObjectTransform keep obj).annotations k =
      if keep.contains k then mapGet obj.annotations k else none) ∧
    (MinimalObjectTransform keep obj).labels = [] ∧
    (MinimalObjectTransform keep obj).managedFields = [] ∧
    (MinimalObjectTransform keep obj).extraFields = [] := by
  refine ⟨rfl, rfl, rfl, rfl, rfl, rfl, rfl, ?_, rfl, rfl, rfl⟩
  intro k
  simpa [MinimalObjectTransform, stripU, stripManagedFields] using
    mapGet_filter_keep obj.annotations keep k

/-- The lease-relevant projection determines and is determined by the two
lookups it restricts to (its construction order is canonical, so structural
equality coincides with Go map DeepEqual). -/
theorem leaseRelevantAnns_eq_iff (a b : Unstructured) :
    (leaseRelevantAnns a defaultKeys = leaseRelevantAnns b defaultKeys) ↔
      (mapGet a.annotations defaultKeys.TTL = mapGet b.annotations defaultKeys.TTL ∧
       mapGet a.annotations defaultKeys.LeaseStart
         = mapGet b.annotations defaultKeys.LeaseStart) := by
  have hne : defaultKeys.TTL ≠ defaultKeys.LeaseStart := by decide
  have hne2 : defaultKeys.LeaseStart ≠ defaultKeys.TTL := by decide
  cases ha : mapGet a.annotations defaultKeys.TTL <;>
    cases hb : mapGet a.annotations defaultKeys.LeaseStart <;>
      cases hc : mapGet b.annotations defaultKeys.TTL <;>
        cases hd : mapGet b.annotations defaultKeys.LeaseStart <;>
          simp_all [leaseRelevantAnns, mapInsert, hne, hne2, if_neg hne]

/-- Claim C6: the watch predicate admits a create event iff the created
object carries the ttl annotation key; admits an update event iff the
restriction of the annotation map to the ttl and lease-start keys differs
between old and new; and never admits delete or generic events. -/
theorem C6_predicate_spec (oldObj newObj obj e : Unstructured) :
    ((onlyWithTTLAnn defaultKeys).createFunc obj
        = mapHas obj.annotations defaultKeys.TTL) ∧
    ((onlyWithTTLAnn defaultKeys).updateFunc oldObj newObj = true ↔
      ¬(mapGet oldObj.annotations defaultKeys.TTL = mapGet newObj.annotations defaultKeys.TTL ∧
        mapGet oldObj.annotations defaultKeys.LeaseStart
          = mapGet newObj.annotations defaultKeys.LeaseStart)) ∧
    (onlyWithTTLAnn defaultKeys).deleteFunc e = false ∧
    (onlyWithTTLAnn defaultKeys).genericFunc e = false := by
  refine ⟨rfl, ?_, rfl, rfl⟩
  have h := leaseRelevantAnns_eq_iff oldObj newObj
  simp only [onlyWithTTLAnn, Bool.not_eq_true', beq_eq_false_iff_ne, ne_eq, h]

/-- Key-presence version of the delete-lookup lemma. -/
theorem mapHas_mapDelete_ne (m : List (String × String)) (k k' : String)
    (h : k' ≠ k) : mapHas (mapDelete m k) k' = mapHas m k' := by
  simp [mapHas, mapGet_mapDelete_ne m k k' h]

/-- Behaviour of `cleanupLeaseAnnotations` at the deployed keys: all three
controller-owned annotations are absent afterwards, exactly one
`LeaseAnnotationsCleaned` event is appended iff at least one of them was
present, and nothing else changes. -/
theorem cleanupLeaseAnnotations_spec (c : Cluster) (s : RecState) :
    mapGet (cleanupLeaseAnnotations c defaultKeys s).obj.annotations defaultKeys.ExpireAt
      = none ∧
    mapGet (cleanupLeaseAnnotations c defaultKeys s).obj.annotations defaultKeys.Status
      = none ∧
    mapGet (cleanupLeaseAnnotations c defaultKeys s).obj.annotations defaultKeys.LeaseStart
      = none ∧
    (cleanupLeaseAnnotations c defaultKeys s).events = s.events ++
      (if mapHas s.obj.annotations defaultKeys.ExpireAt
          || mapHas s.obj.annotations defaultKeys.Status
          || mapHas s.obj.annotations defaultKeys.LeaseStart
        then [⟨"Normal", "LeaseAnnotationsCleaned"⟩] else []) ∧
    (cleanupLeaseAnnotations c defaultKeys s).invalidTTL = s.invalidTTL ∧
    (cleanupLeaseAnnotations c defaultKeys s).deletedUID = s.deletedUID := by
  have h1 : defaultKeys.Status ≠ defaultKeys.ExpireAt := by decide
  have h2 : defaultKeys.LeaseStart ≠ defaultKeys.ExpireAt := by decide
  have h3 : defaultKeys.LeaseStart ≠ defaultKeys.Status := by decide
  have h4 : defaultKeys.ExpireAt ≠ defaultKeys.Status := by decide
  have h5 : defaultKeys.ExpireAt ≠ defaultKeys.LeaseStart := by decide
  have h6 : defaultKeys.Status ≠ defaultKeys.LeaseStart := by decide
  by_cases he : mapHas s.obj.annotations defaultKeys.ExpireAt = true <;>
    by_cases hs : mapHas s.obj.annotations defaultKeys.Status = true <;>
      by_cases hl : mapHas s.obj.annotations defaultKeys.LeaseStart = true <;>
        simp_all [cleanupLeaseAnnotations, emitEvent, mapHas_mapDelete_ne,
          mapGet_mapDelete_self, mapGet_mapDelete_ne, mapHas,
          Option.not_isSome_iff_eq_none]

/-- When `lease-start` is present, nonempty and parses, `ensureLeaseStart`
returns the parsed anchor and leaves the state untouched. -/
theorem ensureLeaseStart_valid (c : Cluster) (s : RecState) (now t : Int) (v : String)
    (hv : mapGet s.obj.annotations defaultKeys.LeaseStart = some v) (hv0 : v ≠ "")
    (hp : parseRFC3339 v = some t) :
    ensureLeaseStart c defaultKeys s now = (t, s) := by
  simp only [ensureLeaseStart, hv, if_neg hv0, hp]

/-- Whatever branch `ensureLeaseStart` takes, every annotation other than
`lease-start` is untouched and so are the invalid-ttl counter, the delete
record, the object identity, the expiry counter; events only grow. -/
theorem ensureLeaseStart_effects (c : Cluster) (s : RecState) (now : Int) :
    (∀ k, k ≠ defaultKeys.LeaseStart →
      mapGet (ensureLeaseStart c defaultKeys s now).2.obj.annotations k
        = mapGet s.obj.annotations k) ∧
    (ensureLeaseStart c defaultKeys s now).2.invalidTTL = s.invalidTTL ∧
    (ensureLeaseStart c defaultKeys s now).2.deletedUID = s.deletedUID ∧
    (ensureLeaseStart c defaultKeys s now).2.obj.uid = s.obj.uid ∧
    (ensureLeaseStart c defaultKeys s now).2.leasesExpired = s.leasesExpired ∧
    ∃ tail, (ensureLeaseStart c defaultKeys s now).2.events = s.events ++ tail := by
  have hins : ∀ (k : String), k ≠ defaultKeys.LeaseStart → ∀ m v0,
      mapGet (mapInsert m defaultKeys.LeaseStart v0) k = mapGet m k :=
    fun k hk m v0 => mapGet_mapInsert_ne m _ v0 k (Ne.symm hk)
  cases hv : mapGet s.obj.annotations defaultKeys.LeaseStart with
  | none =>
    simp only [ensureLeaseStart, hv, updateAnnotations, emitEvent, List.foldl]
    exact ⟨fun k hk => hins k hk _ _, by trivial, by trivial, by trivial, by trivial, _, rfl⟩
  | some v =>
    by_cases hv0 : v = ""
    · subst hv0
      simp only [ensureLeaseStart, hv, if_pos rfl, updateAnnotations, emitEvent, List.foldl]
      exact ⟨fun k hk => hins k hk _ _, by trivial, by trivial, by trivial, by trivial, _, rfl⟩
    · cases hp : parseRFC3339 v with
      | some t =>
        rw [ensureLeaseStart_valid c s now t v hv hv0 hp]
        exact ⟨fun _ _ => rfl, rfl, rfl, rfl, rfl, [], by simp⟩
      | none =>
        simp only [ensureLeaseStart, hv, if_neg hv0, hp, updateAnnotations, emitEvent,
          List.foldl]
        exact ⟨fun k hk => hins k hk _ _, by trivial, by trivial, by trivial, by trivial, _, rfl⟩

/-- `executeCleanupJob` never touches the object, the delete record, or the
expiry counter; events only grow. -/
theorem executeCleanupJob_preserves (c : Cluster) (gvk : GVK) (s : RecState)
    (config : CleanupJobConfig) (expireAt now : Int) :
    (executeCleanupJob c defaultKeys gvk s config expireAt now).1.obj = s.obj ∧
    (executeCleanupJob c defaultKeys gvk s config expireAt now).1.leasesExpired
      = s.leasesExpired ∧
    (executeCleanupJob c defaultKeys gvk s config expireAt now).1.deletedUID
      = s.deletedUID ∧
    ∃ tail, (executeCleanupJob c defaultKeys gvk s config expireAt now).1.events
      = s.events ++ tail := by
  simp only [executeCleanupJob, emitEvent]
  rcases hce : c.createJobErr with _ | e <;>
    rcases hwe : c.waitErr with _ | e2 <;>
      by_cases hw : config.wait <;>
        simp_all

/-- The cleanup-job phase of `handleExpired` never touches the object, the
expiry counter, or the delete record; events only grow. -/
theorem cleanupJobPhase_preserves (c : Cluster) (gvk : GVK) (s : RecState)
    (expireAt now : Int) :
    (cleanupJobPhase c defaultKeys gvk s expireAt now).obj = s.obj ∧
    (cleanupJobPhase c defaultKeys gvk s expireAt now).leasesExpired = s.leasesExpired ∧
    (cleanupJobPhase c defaultKeys gvk s expireAt now).deletedUID = s.deletedUID ∧
    ∃ tail, (cleanupJobPhase c defaultKeys gvk s expireAt now).events = s.events ++ tail := by
  unfold cleanupJobPhase
  cases hc : ParseCleanupJobConfig s.obj.annotations defaultKeys with
  | error e => exact ⟨rfl, rfl, rfl, _, rfl⟩
  | ok ocfg =>
    cases ocfg with
    | none => exact ⟨rfl, rfl, rfl, [], by simp⟩
    | some cfg =>
      dsimp only
      obtain ⟨h1, h2, h3, tail0, h4⟩ := executeCleanupJob_preserves c gvk s cfg expireAt now
      cases hpair : executeCleanupJob c defaultKeys gvk s cfg expireAt now with
      | mk s' r =>
        rw [hpair] at h1 h2 h3 h4
        cases r with
        | some err =>
          refine ⟨h1, h2, h3, tail0 ++ [⟨"Warning", "CleanupJobFailed"⟩], ?_⟩
          show s'.events ++ [⟨"Warning", "CleanupJobFailed"⟩] = _
          rw [show s'.events = s.events ++ tail0 from h4, List.append_assoc]
        | none => exact ⟨h1, h2, h3, tail0, h4⟩

/-- The tail of `handleExpired` from the cleanup-job phase on, for an
arbitrary intermediate state. -/
theorem expiredTail_spec (c : Cluster) (gvk : GVK) (s3 : RecState) (expireAt now : Int) :
    (deletePhase c (cleanupJobPhase c defaultKeys gvk s3 expireAt now)).state.obj = s3.obj ∧
    (deletePhase c (cleanupJobPhase c defaultKeys gvk s3 expireAt now)).state.leasesExpired
      = s3.leasesExpired ∧
    (∃ tail, (deletePhase c (cleanupJobPhase c defaultKeys gvk s3 expireAt now)).state.events
      = s3.events ++ tail) ∧
    (deletePhase c (cleanupJobPhase c defaultKeys gvk s3 expireAt now)).state.deletedUID
      = some s3.obj.uid ∧
    (deletePhase c (cleanupJobPhase c defaultKeys gvk s3 expireAt now)).requeueAfter = none ∧
    (deletePhase c (cleanupJobPhase c defaultKeys gvk s3 expireAt now)).err
      = ignoreNotFound c.deleteErr := by
  obtain ⟨h1, h2, h3, tail0, h4⟩ := cleanupJobPhase_preserves c gvk s3 expireAt now
  cases hd : ignoreNotFound c.deleteErr <;>
    simp only [deletePhase, hd] <;>
    exact ⟨h1, h2, ⟨tail0, h4⟩, by rw [congrArg Unstructured.uid h1], by trivial, by trivial⟩

/-- Behaviour of `handleExpired` at the deployed keys: the expiry
annotations are written, `LeaseExpired` emitted, the counter bumped, the
UID-preconditioned delete issued with NotFound ignored and any other delete
error surfaced; the cleanup-job phase contributes events only. -/
theorem handleExpired_spec (c : Cluster) (gvk : GVK) (s : RecState) (expireAt now : Int) :
    (handleExpired c defaultKeys gvk s expireAt now).state.obj.annotations
      = mapInsert (mapInsert s.obj.annotations defaultKeys.ExpireAt (formatRFC3339 expireAt))
          defaultKeys.Status "Lease expired. Deleting object." ∧
    (handleExpired c defaultKeys gvk s expireAt now).state.obj.uid = s.obj.uid ∧
    (⟨"Normal", "LeaseExpired"⟩ : Event)
      ∈ (handleExpired c defaultKeys gvk s expireAt now).state.events ∧
    (handleExpired c defaultKeys gvk s expireAt now).state.leasesExpired
      = s.leasesExpired + 1 ∧
    (handleExpired c defaultKeys gvk s expireAt now).state.deletedUID = some s.obj.uid ∧
    (handleExpired c defaultKeys gvk s expireAt now).requeueAfter = none ∧
    (handleExpired c defaultKeys gvk s expireAt now).err = ignoreNotFound c.deleteErr := by
  obtain ⟨h1, h2, h3, h4, h5, h6⟩ := expiredTail_spec c gvk
    (let s1 := updateAnnotations c s [(defaultKeys.ExpireAt, formatRFC3339 expireAt),
        (defaultKeys.Status, "Lease expired. Deleting object.")]
     let s2 := emitEvent s1 "Normal" "LeaseExpired"
     { s2 with leasesExpired := s2.leasesExpired + 1 })
    expireAt now
  obtain ⟨tl, htl⟩ := h3
  refine ⟨?_, ?_, ?_, ?_, ?_, ?_, ?_⟩
  · exact (congrArg Unstructured.annotations h1).trans rfl
  · exact (congrArg Unstructured.uid h1).trans rfl
  · rw [show (handleExpired c defaultKeys gvk s expireAt now).state.events
      = (s.events ++ [⟨"Normal", "LeaseExpired"⟩]) ++ tl from htl]
    simp
  · exact h2
  · exact h4
  · exact h5
  · exact h6

/-- Claim C2: after every successful reconcile (namespace tracked, object
found; the resulting object reflects the merge-patches the reconciler
issued) of an object whose ttl annotation is absent, none of lease-start,
expire-at or lease-status remain on the object, and a single
LeaseAnnotationsCleaned event is emitted exactly when at least one of those
three annotations was present before the reconcile. -/
theorem C2_no_ttl_cleanup (gvk : GVK) (c : Cluster) (obj : Unstructured) (now : Int)
    (h : mapGet obj.annotations defaultKeys.TTL = none) :
    mapGet (Reconcile defaultKeys gvk c true (.ok obj) now).state.obj.annotations
      defaultKeys.LeaseStart = none ∧
    mapGet (Reconcile defaultKeys gvk c true (.ok obj) now).state.obj.annotations
      defaultKeys.ExpireAt = none ∧
    mapGet (Reconcile defaultKeys gvk c true (.ok obj) now).state.obj.annotations
      defaultKeys.Status = none ∧
    (Reconcile defaultKeys gvk c true (.ok obj) now).state.events =
      (if mapHas obj.annotations defaultKeys.ExpireAt
          || mapHas obj.annotations defaultKeys.Status
          || mapHas obj.annotations defaultKeys.LeaseStart
        then [⟨"Normal", "LeaseAnnotationsCleaned"⟩] else []) ∧
    (Reconcile defaultKeys gvk c true (.ok obj) now).requeueAfter = none ∧
    (Reconcile defaultKeys gvk c true (.ok obj) now).err = none := by
  have hno : noTTL obj defaultKeys = true := by simp [noTTL, mapGetD, h]
  have hred : Reconcile defaultKeys gvk c true (.ok obj) now
      = { state := cleanupLeaseAnnotations c defaultKeys { obj := obj },
          requeueAfter := none, err := none } := by
    simp [Reconcile, hno]
  obtain ⟨c1, c2, c3, c4, c5, c6⟩ := cleanupLeaseAnnotations_spec c { obj := obj }
  rw [hred]
  exact ⟨c3, c1, c2, by simpa using c4, rfl, rfl⟩

/-- Claim C9: an object whose ttl annotation key is present but maps to the
empty string is reconciled exactly as if ttl were absent: the lease-start,
expire-at and lease-status annotations are removed (with the cleanup event
iff any was present), no Invalid TTL status is written, no InvalidTTL event
or counter increment happens, and reconcile returns without requeue. -/
theorem C9_empty_ttl_as_absent (gvk : GVK) (c : Cluster) (obj : Unstructured) (now : Int)
    (h : mapGet obj.annotations defaultKeys.TTL = some "") :
    mapGet (Reconcile defaultKeys gvk c true (.ok obj) now).state.obj.annotations
      defaultKeys.LeaseStart = none ∧
    mapGet (Reconcile defaultKeys gvk c true (.ok obj) now).state.obj.annotations
      defaultKeys.ExpireAt = none ∧
    mapGet (Reconcile defaultKeys gvk c true (.ok obj) now).state.obj.annotations
      defaultKeys.Status = none ∧
    (Reconcile defaultKeys gvk c true (.ok obj) now).state.events =
      (if mapHas obj.annotations defaultKeys.ExpireAt
          || mapHas obj.annotations defaultKeys.Status
          || mapHas obj.annotations defaultKeys.LeaseStart
        then [⟨"Normal", "LeaseAnnotationsCleaned"⟩] else []) ∧
    (Reconcile defaultKeys gvk c true (.ok obj) now).state.invalidTTL = 0 ∧
    (Reconcile defaultKeys gvk c true (.ok obj) now).state.deletedUID = none ∧
    (Reconcile defaultKeys gvk c true (.ok obj) now).requeueAfter = none ∧
    (Reconcile defaultKeys gvk c true (.ok obj) now).err = none := by
  have hno : noTTL obj defaultKeys = true := by simp [noTTL, mapGetD, h]
  have hred : Reconcile defaultKeys gvk c true (.ok obj) now
      = { state := cleanupLeaseAnnotations c defaultKeys { obj := obj },
          requeueAfter := none, err := none } := by
    simp [Reconcile, hno]
  obtain ⟨c1, c2, c3, c4, c5, c6⟩ := cleanupLeaseAnnotations_spec c { obj := obj }
  rw [hred]
  exact ⟨c3, c1, c2, by simpa using c4, by simpa using c5, by simpa using c6, rfl, rfl⟩

/-- Concrete input for the C2 witness: ttl absent, leftover lease
annotations present. -/
def objW2 : Unstructured :=
  { name := "w2", nsName := "ns", uid := "u-w2",
    annotations := [(defaultKeys.LeaseStart, "2024-01-01T00:00:00Z"),
      (defaultKeys.Status, "Lease active. Expires at 2024-01-01T01:00:00Z UTC.")] }

/-- Witness instantiating C2 at a concrete object. -/
theorem C2_witness :
    mapGet (Reconcile defaultKeys {} {} true (.ok objW2) 0).state.obj.annotations
      defaultKeys.LeaseStart = none ∧
    mapGet (Reconcile defaultKeys {} {} true (.ok objW2) 0).state.obj.annotations
      defaultKeys.ExpireAt = none ∧
    mapGet (Reconcile defaultKeys {} {} true (.ok objW2) 0).state.obj.annotations
      defaultKeys.Status = none ∧
    (Reconcile defaultKeys {} {} true (.ok objW2) 0).state.events =
      (if mapHas objW2.annotations defaultKeys.ExpireAt
          || mapHas objW2.annotations defaultKeys.Status
          || mapHas objW2.annotations defaultKeys.LeaseStart
        then [⟨"Normal", "LeaseAnnotationsCleaned"⟩] else []) ∧
    (Reconcile defaultKeys {} {} true (.ok objW2) 0).requeueAfter = none ∧
    (Reconcile defaultKeys {} {} true (.ok objW2) 0).err = none :=
  C2_no_ttl_cleanup {} {} objW2 0 rfl

/-- Concrete input for the C9 witness: the ttl key present with the empty
string as value, plus a leftover expire-at annotation. -/
def objW9 : Unstructured :=
  { name := "w9", nsName := "ns", uid := "u-w9",
    annotations := [(defaultKeys.TTL, ""),
      (defaultKeys.ExpireAt, "2024-01-01T01:00:00Z")] }

/-- Witness instantiating C9 at a concrete object. -/
theorem C9_witness :
    mapGet (Reconcile defaultKeys {} {} true (.ok objW9) 0).state.obj.annotations
      defaultKeys.LeaseStart = none ∧
    mapGet (Reconcile defaultKeys {} {} true (.ok objW9) 0).state.obj.annotations
      defaultKeys.ExpireAt = none ∧
    mapGet (Reconcile defaultKeys {} {} true (.ok objW9) 0).state.obj.annotations
      defaultKeys.Status = none ∧
    (Reconcile defaultKeys {} {} true (.ok objW9) 0).state.events =
      (if mapHas objW9.annotations defaultKeys.ExpireAt
          || mapHas objW9.annotations defaultKeys.Status
          || mapHas objW9.annotations defaultKeys.LeaseStart
        then [⟨"Normal", "LeaseAnnotationsCleaned"⟩] else []) ∧
    (Reconcile defaultKeys {} {} true (.ok objW9) 0).state.invalidTTL = 0 ∧
    (Reconcile defaultKeys {} {} true (.ok objW9) 0).state.deletedUID = none ∧
    (Reconcile defaultKeys {} {} true (.ok objW9) 0).requeueAfter = none ∧
    (Reconcile defaultKeys {} {} true (.ok objW9) 0).err = none :=
  C9_empty_ttl_as_absent {} {} objW9 0 rfl

/-- Claim C1 (amended: the expiry test is strict, `now > expire-at`; at
`now = expire-at` exactly the reconcile still takes the active branch): for
every reconcile of a tracked, found object whose ttl parses and whose
lease-start is a canonical RFC3339 instant, if now is strictly after
expire-at = lease-start + parse(ttl), the reconciler writes the expired
status annotations, emits LeaseExpired, deletes the object under the
precondition that its UID equals the observed UID, and treats NotFound on
delete as success. -/
theorem C1_expired_is_deleted (gvk : GVK) (c : Cluster) (obj : Unstructured)
    (now t d : Int) (v w : String)
    (hv : mapGet obj.annotations defaultKeys.LeaseStart = some v) (hv0 : v ≠ "")
    (hp : parseRFC3339 v = some t)
    (hw : mapGet obj.annotations defaultKeys.TTL = some w)
    (hd : ParseFlexibleDuration w = .ok d)
    (hexp : t + d < now) :
    mapGet (Reconcile defaultKeys gvk c true (.ok obj) now).state.obj.annotations
      defaultKeys.ExpireAt = some (formatRFC3339 (t + d)) ∧
    mapGet (Reconcile defaultKeys gvk c true (.ok obj) now).state.obj.annotations
      defaultKeys.Status = some "Lease expired. Deleting object." ∧
    (⟨"Normal", "LeaseExpired"⟩ : Event)
      ∈ (Reconcile defaultKeys gvk c true (.ok obj) now).state.events ∧
    (Reconcile defaultKeys gvk c true (.ok obj) now).state.leasesExpired = 1 ∧
    (Reconcile defaultKeys gvk c true (.ok obj) now).state.deletedUID = some obj.uid ∧
    (c.deleteErr = some .notFound →
      (Reconcile defaultKeys gvk c true (.ok obj) now).err = none) ∧
    (c.deleteErr = none → (Reconcile defaultKeys gvk c true (.ok obj) now).err = none) ∧
    (Reconcile defaultKeys gvk c true (.ok obj) now).requeueAfter = none := by
  have hw0 : w ≠ "" := by
    intro hEq
    rw [hEq, show ParseFlexibleDuration "" = .error "invalid duration string: \"\"" from rfl]
      at hd
    cases hd
  have hno : noTTL obj defaultKeys = false := by
    simp [noTTL, mapGetD, hw, hw0]
  have hred : Reconcile defaultKeys gvk c true (.ok obj) now
      = handleExpired c defaultKeys gvk { obj := obj } (t + d) now := by
    simp only [Reconcile, hno, ensureLeaseStart_valid c { obj := obj } now t v hv hv0 hp,
      mapGetD, hw, Option.getD_some, hd, hexp, Bool.false_eq_true, if_false, if_pos]
    simp
  have hsne : defaultKeys.Status ≠ defaultKeys.ExpireAt := by decide
  obtain ⟨ha, hu, hev, hcount, hdel, hreq, herr⟩ :=
    handleExpired_spec c gvk { obj := obj } (t + d) now
  rw [hred]
  refine ⟨?_, ?_, hev, hcount, hdel, ?_, ?_, hreq⟩
  · rw [ha, mapGet_mapInsert_ne _ _ _ _ hsne, mapGet_mapInsert_self]
  · rw [ha, mapGet_mapInsert_self]
  · intro hcase; rw [herr, hcase]; rfl
  · intro hcase; rw [herr, hcase]; rfl

/-- Concrete input for the C1 witness: ttl 1h, lease-start 2024-01-01,
reconciled well after expiry. -/
def objW1 : Unstructured :=
  { name := "w1", nsName := "ns", uid := "u-w1",
    annotations := [(defaultKeys.TTL, "1h"),
      (defaultKeys.LeaseStart, "2024-01-01T00:00:00Z")] }

/-- Witness instantiating C1 (amended) at a concrete expired object. -/
theorem C1_witness :
    mapGet (Reconcile defaultKeys {} {} true (.ok objW1) 1710000000000000000).state.obj.annotations
      defaultKeys.ExpireAt = some (formatRFC3339 (1704067200000000000 + 3600000000000)) ∧
    mapGet (Reconcile defaultKeys {} {} true (.ok objW1) 1710000000000000000).state.obj.annotations
      defaultKeys.Status = some "Lease expired. Deleting object." ∧
    (⟨"Normal", "LeaseExpired"⟩ : Event)
      ∈ (Reconcile defaultKeys {} {} true (.ok objW1) 1710000000000000000).state.events ∧
    (Reconcile defaultKeys {} {} true (.ok objW1) 1710000000000000000).state.leasesExpired = 1 ∧
    (Reconcile defaultKeys {} {} true (.ok objW1) 1710000000000000000).state.deletedUID
      = some objW1.uid ∧
    (({} : Cluster).deleteErr = some .notFound →
      (Reconcile defaultKeys {} {} true (.ok objW1) 1710000000000000000).err = none) ∧
    (({} : Cluster).deleteErr = none →
      (Reconcile defaultKeys {} {} true (.ok objW1) 1710000000000000000).err = none) ∧
    (Reconcile defaultKeys {} {} true (.ok objW1) 1710000000000000000).requeueAfter = none :=
  C1_expired_is_deleted {} {} objW1 1710000000000000000 1704067200000000000 3600000000000
    "2024-01-01T00:00:00Z" "1h" rfl (by decide) rfl rfl rfl (by decide)

/-- Counterexample to C1 as stated: at `now = expire-at` exactly (so
`now ≥ expire-at` holds) the object is not deleted — the reconcile takes
the active branch, writes an active status and requeues after zero. -/
theorem C1_counterexample :
    parseRFC3339 "2024-01-01T00:00:00Z" = some 1704067200000000000 ∧
    ParseFlexibleDuration "1h" = .ok 3600000000000 ∧
    (Reconcile defaultKeys {} {} true (.ok objW1)
      (1704067200000000000 + 3600000000000)).state.deletedUID = none ∧
    mapGet (Reconcile defaultKeys {} {} true (.ok objW1)
      (1704067200000000000 + 3600000000000)).state.obj.annotations defaultKeys.Status
      = some "Lease active. Expires at 2024-01-01T01:00:00Z UTC." ∧
    (Reconcile defaultKeys {} {} true (.ok objW1)
      (1704067200000000000 + 3600000000000)).state.events = [] ∧
    (Reconcile defaultKeys {} {} true (.ok objW1)
      (1704067200000000000 + 3600000000000)).requeueAfter = some 0 :=
  ⟨rfl, rfl, rfl, rfl, rfl, rfl⟩

/-- Claim C4 (amended: only the DELETE is covered — a Conflict error
returned by the UID-preconditioned DELETE on the expired path is surfaced
as the reconcile's error result, so the key is requeued with backoff;
Conflict errors returned by PATCH calls are read and discarded by
`updateAnnotations` and never surface). -/
theorem C4_delete_conflict_surfaced (gvk : GVK) (c : Cluster) (obj : Unstructured)
    (now t d : Int) (v w : String)
    (hv : mapGet obj.annotations defaultKeys.LeaseStart = some v) (hv0 : v ≠ "")
    (hp : parseRFC3339 v = some t)
    (hw : mapGet obj.annotations defaultKeys.TTL = some w)
    (hd : ParseFlexibleDuration w = .ok d)
    (hexp : t + d < now)
    (hdc : c.deleteErr = some .conflict) :
    (Reconcile defaultKeys gvk c true (.ok obj) now).err = some .conflict := by
  have hw0 : w ≠ "" := by
    intro hEq
    rw [hEq, show ParseFlexibleDuration "" = .error "invalid duration string: \"\"" from rfl]
      at hd
    cases hd
  have hno : noTTL obj defaultKeys = false := by
    simp [noTTL, mapGetD, hw, hw0]
  have hred : Reconcile defaultKeys gvk c true (.ok obj) now
      = handleExpired c defaultKeys gvk { obj := obj } (t + d) now := by
    simp only [Reconcile, hno, ensureLeaseStart_valid c { obj := obj } now t v hv hv0 hp,
      mapGetD, hw, Option.getD_some, hd, hexp, Bool.false_eq_true, if_false, if_pos]
    simp
  obtain ⟨_, _, _, _, _, _, herr⟩ := handleExpired_spec c gvk { obj := obj } (t + d) now
  rw [hred, herr, hdc]
  rfl

/-- Concrete input for the C4 witness and counterexample. -/
def objW4 : Unstructured :=
  { name := "w4", nsName := "ns", uid := "u-w4",
    annotations := [(defaultKeys.TTL, "2h"),
      (defaultKeys.LeaseStart, "2024-01-01T00:00:00Z")] }

/-- Witness instantiating C4 (amended): a Conflict from the DELETE on an
expired object becomes the reconcile error. -/
theorem C4_witness :
    (Reconcile defaultKeys {} { deleteErr := some .conflict } true (.ok objW4)
      1710000000000000000).err = some .conflict :=
  C4_delete_conflict_surfaced {} { deleteErr := some .conflict } objW4
    1710000000000000000 1704067200000000000 7200000000000
    "2024-01-01T00:00:00Z" "2h" rfl (by decide) rfl rfl rfl (by decide) rfl

/-- Counterexample to C4 as stated: on the active path the single PATCH
issued returns Conflict, yet the reconcile reports no error — the patch
result is silently discarded (`_ = r.Patch(...)`). -/
theorem C4_counterexample :
    (Reconcile defaultKeys {} { patchErr := fun _ => some .conflict } true (.ok objW4)
      1704067200000000000).state.patchResults = [some .conflict] ∧
    (Reconcile defaultKeys {} { patchErr := fun _ => some .conflict } true (.ok objW4)
      1704067200000000000).err = none ∧
    (Reconcile defaultKeys {} { patchErr := fun _ => some .conflict } true (.ok objW4)
      1704067200000000000).requeueAfter = some 7200000000000 :=
  ⟨rfl, rfl, rfl⟩

/-- Claim C3 (amended: "present" means present with a nonempty value — a
ttl key holding the empty string is handled by the cleanup path instead,
see C9): for every reconcile of a tracked, found object whose ttl
annotation is nonempty and unparseable, the reconciler writes lease-status
"Invalid TTL: <detail>", emits an InvalidTTL Warning event, increments the
invalid-ttl counter and returns without requeue; it does not write
expire-at and does not delete the object. -/
theorem C3_invalid_ttl_reported (gvk : GVK) (c : Cluster) (obj : Unstructured) (now : Int)
    (w e : String)
    (hw : mapGet obj.annotations defaultKeys.TTL = some w) (hw0 : w ≠ "")
    (he : ParseFlexibleDuration w = .error e) :
    mapGet (Reconcile defaultKeys gvk c true (.ok obj) now).state.obj.annotations
      defaultKeys.Status = some ("Invalid TTL: " ++ e) ∧
    (⟨"Warning", "InvalidTTL"⟩ : Event)
      ∈ (Reconcile defaultKeys gvk c true (.ok obj) now).state.events ∧
    (Reconcile defaultKeys gvk c true (.ok obj) now).state.invalidTTL = 1 ∧
    mapGet (Reconcile defaultKeys gvk c true (.ok obj) now).state.obj.annotations
      defaultKeys.ExpireAt = mapGet obj.annotations defaultKeys.ExpireAt ∧
    (Reconcile defaultKeys gvk c true (.ok obj) now).state.deletedUID = none ∧
    (Reconcile defaultKeys gvk c true (.ok obj) now).requeueAfter = none ∧
    (Reconcile defaultKeys gvk c true (.ok obj) now).err = none := by
  have hno : noTTL obj defaultKeys = false := by
    simp [noTTL, mapGetD, hw, hw0]
  have hT : defaultKeys.TTL ≠ defaultKeys.LeaseStart := by decide
  have hE : defaultKeys.ExpireAt ≠ defaultKeys.LeaseStart := by decide
  have hSE : defaultKeys.Status ≠ defaultKeys.ExpireAt := by decide
  obtain ⟨hlook, hinv, hdel, huid, hexpC, tail, hevents⟩ :=
    ensureLeaseStart_effects c { obj := obj } now
  cases hes : ensureLeaseStart c defaultKeys { obj := obj } now with
  | mk startAt s1 =>
    rw [hes] at hlook hinv hdel hevents
    dsimp only at hlook hinv hdel hevents
    have htw : mapGetD s1.obj.annotations defaultKeys.TTL = w := by
      rw [mapGetD, hlook _ hT, hw]
      rfl
    have hred : Reconcile defaultKeys gvk c true (.ok obj) now
        = { state := markInvalidTTL c defaultKeys s1 e, requeueAfter := none, err := none } := by
      simp only [Reconcile, hno, hes, htw, he, Bool.false_eq_true, if_false]
      simp
    rw [hred]
    refine ⟨?_, ?_, ?_, ?_, ?_, rfl, rfl⟩
    · simp only [markInvalidTTL, updateAnnotations, emitEvent, List.foldl]
      exact mapGet_mapInsert_self _ _ _
    · simp only [markInvalidTTL, updateAnnotations, emitEvent, List.foldl]
      simp
    · simp only [markInvalidTTL, updateAnnotations, emitEvent]
      rw [show s1.invalidTTL = 0 from hinv]
    · simp only [markInvalidTTL, updateAnnotations, emitEvent, List.foldl]
      rw [mapGet_mapInsert_ne _ _ _ _ hSE]
      exact hlook _ hE
    · exact hdel

/-- Concrete input for the C3 witness: an unparseable nonempty ttl. -/
def objW3 : Unstructured :=
  { name := "w3", nsName := "ns", uid := "u-w3",
    annotations := [(defaultKeys.TTL, "wrong")] }

/-- Witness instantiating C3 (amended) at a concrete object. -/
theorem C3_witness :
    mapGet (Reconcile defaultKeys {} {} true (.ok objW3) 0).state.obj.annotations
      defaultKeys.Status
      = some ("Invalid TTL: " ++ "invalid duration string: \"wrong\"") ∧
    (⟨"Warning", "InvalidTTL"⟩ : Event)
      ∈ (Reconcile defaultKeys {} {} true (.ok objW3) 0).state.events ∧
    (Reconcile defaultKeys {} {} true (.ok objW3) 0).state.invalidTTL = 1 ∧
    mapGet (Reconcile defaultKeys {} {} true (.ok objW3) 0).state.obj.annotations
      defaultKeys.ExpireAt = mapGet objW3.annotations defaultKeys.ExpireAt ∧
    (Reconcile defaultKeys {} {} true (.ok objW3) 0).state.deletedUID = none ∧
    (Reconcile defaultKeys {} {} true (.ok objW3) 0).requeueAfter = none ∧
    (Reconcile defaultKeys {} {} true (.ok objW3) 0).err = none :=
  C3_invalid_ttl_reported {} {} objW3 0 "wrong" "invalid duration string: \"wrong\""
    rfl (by decide) rfl

/-- Concrete input for the C3 counterexample: the ttl key present with the
empty string. -/
def objX3 : Unstructured :=
  { name := "x3", nsName := "ns", uid := "u-x3",
    annotations := [(defaultKeys.TTL, "")] }

/-- Counterexample to C3 as stated: the empty string is a present,
unparseable ttl value, yet the reconcile writes no Invalid TTL status,
emits no event and does not touch the invalid-ttl counter — it takes the
cleanup path instead. -/
theorem C3_counterexample :
    mapGet objX3.annotations defaultKeys.TTL = some "" ∧
    ParseFlexibleDuration "" = .error "invalid duration string: \"\"" ∧
    mapGet (Reconcile defaultKeys {} {} true (.ok objX3) 0).state.obj.annotations
      defaultKeys.Status = none ∧
    (Reconcile defaultKeys {} {} true (.ok objX3) 0).state.invalidTTL = 0 ∧
    (Reconcile defaultKeys {} {} true (.ok objX3) 0).state.events = [] :=
  ⟨rfl, rfl, rfl, rfl, rfl⟩

/-- Concrete input for C8: an expired object requesting a cleanup job and
listing two Secrets in job-env-secrets. -/
def objW8 : Unstructured :=
  { name := "w8", nsName := "ns", uid := "u-w8",
    annotations := [(defaultKeys.TTL, "1h"),
      (defaultKeys.LeaseStart, "2024-01-01T00:00:00Z"),
      (defaultKeys.OnDeleteJob, "scripts/cleanup.sh"),
      (defaultKeys.JobEnvSecrets, "aws-creds,db-password")] }

/-- The GVK used for the C8 evaluation. -/
def gvkW8 : GVK := { group := "", version := "v1", kind := "ConfigMap" }

/-- Claim C8 (code bug): the object carries job-env-secrets naming two
Secrets, and the intended projection (spec §4.5 and the repository's own
tests via `buildEnvFrom`) yields one envFrom Secret reference per name —
but the cleanup job the reconciler actually constructs and submits for the
expiring object gives its container no envFrom references at all:
`ParseCleanupJobConfig` under src/ never reads the annotation and
`CreateCleanupJob` never populates envFrom. -/
theorem C8_env_secrets_not_projected :
    mapGet objW8.annotations defaultKeys.JobEnvSecrets = some "aws-creds,db-password" ∧
    buildEnvFrom (splitEnvSecrets "aws-creds,db-password") = ["aws-creds", "db-password"] ∧
    ((Reconcile defaultKeys gvkW8 {} true (.ok objW8)
        1710000000000000000).state.createdJobs.map
      (fun j => j.containers.map (fun ct => ct.envFrom))) = [[[]]] ∧
    (⟨"Normal", "CleanupJobCreated"⟩ : Event)
      ∈ (Reconcile defaultKeys gvkW8 {} true (.ok objW8) 1710000000000000000).state.events ∧
    (Reconcile defaultKeys gvkW8 {} true (.ok objW8) 1710000000000000000).state.deletedUID
      = some objW8.uid :=
  ⟨rfl, rfl, rfl, by decide, rfl⟩

end OLC
